import Mathlib

/-!
Verification of the keygen `LocalParty` component of `tss-lib`
(`ecdsa/keygen/local_party.go`): a shallow embedding of the party shell,
its message store, the original-index recovery scan, and the lifecycle
operations `NewLocalParty`, `Start`, `StoreMessage` and `Finish`.

External cryptographic values (hash commitments, EC points, Paillier keys,
range-proof moduli, message payloads) are opaque in the source slice under
study; they are modelled by plain integers. Go slices become Lean lists,
a Go slice write `a[i] = v` becomes a bounds-checked update that returns
`none` on the index-out-of-range panic, nilable pointers become `Option`,
and the two Go channels become traces (lists) of the values sent on them.
-/

namespace Keygen

/-- Round-1 broadcast message: the hash commitment to the sender's polynomial
coefficients, plus its Paillier public key and range-proof parameters.
The content is opaque here; only the sender index is inspected by
`storeMessage`. -/
structure KGRound1CommitMessage where
  fromIdx : Int
  payload : Nat
deriving DecidableEq, Repr

/-- Round-2 point-to-point message carrying a Feldman VSS share. -/
structure KGRound2VssMessage where
  fromIdx : Int
  payload : Nat
deriving DecidableEq, Repr

/-- Round-2 broadcast decommitment message. -/
structure KGRound2DeCommitMessage where
  fromIdx : Int
  payload : Nat
deriving DecidableEq, Repr

/-- Round-3 broadcast Paillier correctness proof message. -/
structure KGRound3PaillierProveMessage where
  fromIdx : Int
  payload : Nat
deriving DecidableEq, Repr

/-- An inbound `tss.Message` as seen by `StoreMessage`: one of the four
recognized keygen kinds, or a message of any other (unrecognized) kind.
`msg.GetFrom().Index` is the `fromIdx` of the carried message. -/
inductive TssMessage where
  | kgRound1Commit : KGRound1CommitMessage → TssMessage
  | kgRound2Vss : KGRound2VssMessage → TssMessage
  | kgRound2DeCommit : KGRound2DeCommitMessage → TssMessage
  | kgRound3PaillierProve : KGRound3PaillierProveMessage → TssMessage
  | unrecognized : Int → TssMessage
deriving DecidableEq, Repr

/-- `msg.GetFrom().Index` — the sender's current-session index. -/
def TssMessage.fromIdx : TssMessage → Int
  | .kgRound1Commit m => m.fromIdx
  | .kgRound2Vss m => m.fromIdx
  | .kgRound2DeCommit m => m.fromIdx
  | .kgRound3PaillierProve m => m.fromIdx
  | .unrecognized i => i

/-- Whether a message is one of the four recognized keygen kinds. -/
def TssMessage.recognized : TssMessage → Bool
  | .unrecognized _ => false
  | _ => true

/-- `LocalPartyMessageStore`: the four per-sender slot arrays, each slot
`nil` (here `none`) until the sender's message arrives. -/
structure LocalPartyMessageStore where
  kgRound1CommitMessages : List (Option KGRound1CommitMessage)
  kgRound2VssMessages : List (Option KGRound2VssMessage)
  kgRound2DeCommitMessages : List (Option KGRound2DeCommitMessage)
  kgRound3PaillierProveMessage : List (Option KGRound3PaillierProveMessage)
deriving DecidableEq, Repr

/-- `LocalPartyTempData`: the message store plus per-round ephemeral data
(secret seed `ui`, received commitments `KGCs`, own polynomial commitments
`vs`, generated shares, and the decommitment witness), all opaque. -/
structure LocalPartyTempData where
  store : LocalPartyMessageStore
  ui : Int
  KGCs : List (Option Int)
  vs : List Int
  shares : List Int
  deCommitPolyG : List Int
deriving DecidableEq, Repr

/-- `LocalPartySaveData`: the durable output of keygen. Pointer-typed
fields are `Option`; `Xi` and `ShareID` are modelled as integer values
(the original-index scan compares them by value). -/
structure LocalPartySaveData where
  Xi : Int
  ShareID : Int
  PaillierSk : Option Int
  BigXj : List (Option Int)
  PaillierPks : List (Option Int)
  NTildej : List (Option Int)
  H1j : List (Option Int)
  H2j : List (Option Int)
  Ks : List Int
  ECDSAPub : Option Int
deriving DecidableEq, Repr

/-- A round object as `LocalParty.Start` sees it: its number (the Go type
assertion `p.Round.(*round1)` tests `number = 1`) and whether its own
`Start` has already run. -/
structure Round where
  number : Nat
  started : Bool
deriving DecidableEq, Repr

/-- Errors surfaced through `*tss.Error` in the slice under study. -/
inductive TssError where
  | invalidState : TssError
deriving DecidableEq, Repr

/-- `LocalParty`: parameters (party count and own index), temp and save
data, the current round object (`none` once the terminal round retires),
and the traces of the outbound and result channels. -/
structure LocalParty where
  partyCount : Nat
  partyIdx : Int
  temp : LocalPartyTempData
  data : LocalPartySaveData
  round : Option Round
  out : List TssMessage
  endCh : List LocalPartySaveData
deriving DecidableEq, Repr

/-- `NewLocalParty`: allocates the temp slot arrays and `KGCs` and the
save-data arrays `BigXj`, `PaillierPks`, `NTildej`, `H1j`, `H2j` to the
party count, leaves every other field at its zero value, and positions the
party at a fresh round 1. -/
def NewLocalParty (n : Nat) (idx : Int) : LocalParty :=
  { partyCount := n
    partyIdx := idx
    temp :=
      { store :=
          { kgRound1CommitMessages := List.replicate n none
            kgRound2VssMessages := List.replicate n none
            kgRound2DeCommitMessages := List.replicate n none
            kgRound3PaillierProveMessage := List.replicate n none }
        ui := 0
        KGCs := List.replicate n none
        vs := []
        shares := []
        deCommitPolyG := [] }
    data :=
      { Xi := 0
        ShareID := 0
        PaillierSk := none
        BigXj := List.replicate n none
        PaillierPks := List.replicate n none
        NTildej := List.replicate n none
        H1j := List.replicate n none
        H2j := List.replicate n none
        Ks := []
        ECDSAPub := none }
    round := some { number := 1, started := false }
    out := []
    endCh := [] }

/-- A Go slice write `l[i] = v`: in bounds it updates position `i`,
out of range (negative or past the length) it panics (`none`). -/
def setAt {α : Type} (l : List α) (i : Int) (v : α) : Option (List α) :=
  if 0 ≤ i ∧ i < (l.length : Int) then some (l.set i.toNat v) else none

/-- `LocalParty.StoreMessage`: dispatches on the message kind, writing the
message into the matching slot array at the sender's index and answering
`(true, nil)`; an unrecognized kind is ignored with `(false, nil)`. The
result is `none` when the slice write panics. -/
def storeMessage (p : LocalParty) (msg : TssMessage) :
    Option (LocalParty × Bool × Option TssError) :=
  match msg with
  | .kgRound1Commit m =>
    match setAt p.temp.store.kgRound1CommitMessages m.fromIdx (some m) with
    | some l =>
      some ({ p with
                temp := { p.temp with
                            store := { p.temp.store with
                                         kgRound1CommitMessages := l } } },
            true, none)
    | none => none
  | .kgRound2Vss m =>
    match setAt p.temp.store.kgRound2VssMessages m.fromIdx (some m) with
    | some l =>
      some ({ p with
                temp := { p.temp with
                            store := { p.temp.store with
                                         kgRound2VssMessages := l } } },
            true, none)
    | none => none
  | .kgRound2DeCommit m =>
    match setAt p.temp.store.kgRound2DeCommitMessages m.fromIdx (some m) with
    | some l =>
      some ({ p with
                temp := { p.temp with
                            store := { p.temp.store with
                                         kgRound2DeCommitMessages := l } } },
            true, none)
    | none => none
  | .kgRound3PaillierProve m =>
    match setAt p.temp.store.kgRound3PaillierProveMessage m.fromIdx (some m) with
    | some l =>
      some ({ p with
                temp := { p.temp with
                            store := { p.temp.store with
                                         kgRound3PaillierProveMessage := l } } },
            true, none)
    | none => none
  | .unrecognized _ => some (p, false, none)

/-- Modelled from the spec: `round1.Start` (the `round_1.go` file is not in
the slice under study). Per §4.2/§4.3 a round's `Start` runs at most once
and emits the round's outbound messages; starting an already-started party
is the `InvalidStateError` API misuse of §7. Here it marks the round
started and broadcasts the round-1 commit message. -/
def round1Start (p : LocalParty) (r : Round) : LocalParty × Option TssError :=
  if r.started then (p, some .invalidState)
  else
    ({ p with
         round := some { r with started := true }
         out := p.out ++ [.kgRound1Commit { fromIdx := p.partyIdx, payload := 0 }] },
     none)

/-- `LocalParty.Start`: the Go type assertion `p.Round.(*round1)` requires
the current round object to be a (non-nil) round 1; otherwise the call
fails with the invalid-state error. On success it delegates to round 1's
`Start`. -/
def start (p : LocalParty) : LocalParty × Option TssError :=
  match p.round with
  | some r => if r.number = 1 then round1Start p r else (p, some .invalidState)
  | none => (p, some .invalidState)

/-- `LocalParty.Finish`: sends the completed save data on the result
channel (`p.end <- p.data`). -/
def finish (p : LocalParty) : LocalParty :=
  { p with endCh := p.endCh ++ [p.data] }

/-- The scan loop of `OriginalIndex`: first position whose entry equals
`ki`, or the loop leaves `index = -1`. -/
def scanKs : List Int → Int → Nat → Int
  | [], _, _ => -1
  | kj :: rest, ki, j => if kj = ki then (j : Int) else scanKs rest ki (j + 1)

/-- `LocalPartySaveData.OriginalIndex`: scans `Ks` for the entry equal to
this party's `ShareID`; `(-1, error)` when the loop finds none. -/
def originalIndex (save : LocalPartySaveData) : Int × Option String :=
  let index := scanKs save.Ks save.ShareID 0
  if index < 0 then (-1, some "a party index could not be recovered from Ks")
  else (index, none)

/-- Modelled from the spec: one completion step of the round state machine
of §4.2 (`Round1 → Round2 → Round3 → Done`, no back-edges, no skipping).
The `round2`/`round3` objects and the `BaseUpdate` driver are outside the
slice under study. A non-terminal round hands over to the next round
object; the terminal round 3 calls `Finish` and retires the round. -/
def advanceRound (p : LocalParty) : LocalParty :=
  match p.round with
  | some r =>
    if r.number < 3 then { p with round := some { number := r.number + 1, started := true } }
    else finish { p with round := none }
  | none => p

/-- Modelled from the spec: a successful protocol run for one party —
`Start`, then the three round completions of §4.2, the last of which is
the terminal round-3 finalization. -/
def runProtocol (p : LocalParty) : LocalParty :=
  advanceRound (advanceRound (advanceRound (start p).1))

/-- A concrete completed save data (party count 2) whose `ShareID` occurs
in `Ks` at position 1; used to evaluate the index-recovery scan. -/
def sampleSave : LocalPartySaveData :=
  { Xi := 1
    ShareID := 7
    PaillierSk := none
    BigXj := [none, none]
    PaillierPks := [none, none]
    NTildej := [none, none]
    H1j := [none, none]
    H2j := [none, none]
    Ks := [5, 7]
    ECDSAPub := none }

/-- A concrete save data whose `ShareID` occurs nowhere in `Ks`. -/
def sampleSaveMissing : LocalPartySaveData :=
  { sampleSave with ShareID := 9 }

/-- The party obtained by storing one round-1 commit message from sender 1
into a fresh two-party state; used to evaluate the frame conditions of
`StoreMessage`. -/
def storedSample : LocalParty :=
  { NewLocalParty 2 0 with
      temp := { (NewLocalParty 2 0).temp with
                  store := { (NewLocalParty 2 0).temp.store with
                               kgRound1CommitMessages :=
                                 [none, some { fromIdx := 1, payload := 9 }] } } }

/-- C1: On a freshly constructed party `Start` succeeds; a second `Start`
on the same party fails with the invalid-state error and emits no
additional outbound message; and `Start` succeeds only on a party whose
current round is a fresh, unstarted round 1. -/
theorem start_twice_invalid (n : Nat) (idx : Int) :
    (start (NewLocalParty n idx)).2 = none ∧
    (start (start (NewLocalParty n idx)).1).2 = some .invalidState ∧
    (start (start (NewLocalParty n idx)).1).1.out = (start (NewLocalParty n idx)).1.out ∧
    ∀ q : LocalParty, (start q).2 = none →
      q.round = some { number := 1, started := false } := by
  refine ⟨rfl, rfl, rfl, ?_⟩
  intro q h
  rcases hq : q.round with _ | r
  · simp [start, hq] at h
  · rcases r with ⟨num, st⟩
    by_cases h1 : num = 1
    · subst h1
      cases st with
      | false => rfl
      | true => simp [start, hq, round1Start] at h
    · simp [start, hq, round1Start, h1] at h

/-- C1 witness at `n = 3`, `idx = 0`. -/
theorem start_twice_invalid_witness :
    (NewLocalParty 3 0).round = some { number := 1, started := false } :=
  (start_twice_invalid 3 0).2.2.2 (NewLocalParty 3 0) (by decide)

/-- C3 counterexample: after construction with party count `1`, the
save-data array `Ks` has length `0`, not the party count — `NewLocalParty`
allocates `BigXj`, `PaillierPks`, `NTildej`, `H1j`, `H2j` but never `Ks`. -/
theorem newLocalParty_ks_counterexample :
    (NewLocalParty 1 0).data.Ks.length = 0 ∧ (NewLocalParty 1 0).partyCount = 1 := by
  constructor <;> rfl

/-- C3 (amended): after `NewLocalParty` with party count `n`, the temp
arrays `KGCs` and the four message-store slot arrays, and the save-data
arrays `BigXj`, `PaillierPks`, `NTildej`, `H1j`, `H2j`, all have length
`n`; the save-data array `Ks` is left unallocated (length `0`) at
construction. -/
theorem newLocalParty_array_lengths (n : Nat) (idx : Int) :
    (NewLocalParty n idx).temp.KGCs.length = n ∧
    (NewLocalParty n idx).temp.store.kgRound1CommitMessages.length = n ∧
    (NewLocalParty n idx).temp.store.kgRound2VssMessages.length = n ∧
    (NewLocalParty n idx).temp.store.kgRound2DeCommitMessages.length = n ∧
    (NewLocalParty n idx).temp.store.kgRound3PaillierProveMessage.length = n ∧
    (NewLocalParty n idx).data.BigXj.length = n ∧
    (NewLocalParty n idx).data.PaillierPks.length = n ∧
    (NewLocalParty n idx).data.NTildej.length = n ∧
    (NewLocalParty n idx).data.H1j.length = n ∧
    (NewLocalParty n idx).data.H2j.length = n ∧
    (NewLocalParty n idx).data.Ks.length = 0 := by
  simp [NewLocalParty]

/-- C4: a message of an unrecognized kind is reported as not stored with
no error, and the whole party state — in particular each of the four slot
arrays — is left unchanged. -/
theorem storeMessage_unrecognized (p : LocalParty) (i : Int) :
    storeMessage p (.unrecognized i) = some (p, false, none) := rfl

/-- C8: `Finish` sends exactly the party's save data on the result
channel, as one further delivery; and over a successful protocol run from
a fresh party exactly one save-data value is delivered on the result
channel, exactly once. -/
theorem finish_delivers_once :
    (∀ p : LocalParty, (finish p).endCh = p.endCh ++ [p.data]) ∧
    ∀ (n : Nat) (idx : Int),
      (runProtocol (NewLocalParty n idx)).endCh =
        [(runProtocol (NewLocalParty n idx)).data] := by
  exact ⟨fun p => rfl, fun n idx => rfl⟩

/-- The scan loop finds nothing when the sought value is absent. -/
theorem scanKs_not_mem (ks : List Int) (ki : Int) (j : Nat) (h : ki ∉ ks) :
    scanKs ks ki j = -1 := by
  induction ks generalizing j with
  | nil => rfl
  | cons a rest ih =>
    rw [scanKs, if_neg (fun he => h (List.mem_cons.mpr (Or.inl he.symm)))]
    exact ih (j + 1) (fun hm => h (List.mem_cons_of_mem a hm))

/-- The scan loop, started at offset `j`, stops at the first position
holding the sought value. -/
theorem scanKs_mem (ks : List Int) (ki : Int) (j : Nat) (h : ki ∈ ks) :
    ∃ d : Nat, scanKs ks ki j = ((j + d : Nat) : Int) ∧ ks[d]? = some ki ∧
      ∀ i < d, ks[i]? ≠ some ki := by
  induction ks generalizing j with
  | nil => cases h
  | cons a rest ih =>
    by_cases ha : a = ki
    · refine ⟨0, ?_, by simp [ha], fun i hi => absurd hi (by omega)⟩
      rw [scanKs, if_pos ha]
      simp
    · have hm : ki ∈ rest := by
        rcases List.mem_cons.mp h with he | hm
        · exact absurd he.symm ha
        · exact hm
      obtain ⟨d, h1, h2, h3⟩ := ih (j + 1) hm
      refine ⟨d + 1, ?_, by simpa using h2, ?_⟩
      · rw [scanKs, if_neg ha, h1]
        congr 1
        omega
      · intro i hi
        cases i with
        | zero => simpa using ha
        | succ i => simpa using h3 i (by omega)

/-- C2: `OriginalIndex` returns, with no error, the position of the first
entry of `Ks` equal to `ShareID`, and returns `-1` with the
index-recovery error exactly when no entry of `Ks` equals `ShareID`. -/
theorem originalIndex_first_match (save : LocalPartySaveData) :
    (save.ShareID ∉ save.Ks →
       originalIndex save = (-1, some "a party index could not be recovered from Ks")) ∧
    (save.ShareID ∈ save.Ks →
       ∃ j : Nat, originalIndex save = ((j : Int), none) ∧
         save.Ks[j]? = some save.ShareID ∧
         ∀ i < j, save.Ks[i]? ≠ some save.ShareID) := by
  constructor
  · intro h
    simp [originalIndex, scanKs_not_mem _ _ _ h]
  · intro h
    obtain ⟨d, h1, h2, h3⟩ := scanKs_mem save.Ks save.ShareID 0 h
    refine ⟨d, ?_, h2, h3⟩
    simp only [Nat.zero_add] at h1
    simp [originalIndex, h1]

/-- C2 witness: the scan succeeds at position 1 on `sampleSave` and fails
with the error on `sampleSaveMissing`. -/
theorem originalIndex_first_match_witness :
    originalIndex sampleSaveMissing =
      (-1, some "a party index could not be recovered from Ks") ∧
    ∃ j : Nat, originalIndex sampleSave = ((j : Int), none) ∧
      sampleSave.Ks[j]? = some sampleSave.ShareID ∧
      ∀ i < j, sampleSave.Ks[i]? ≠ some sampleSave.ShareID :=
  ⟨(originalIndex_first_match sampleSaveMissing).1 (by decide),
   (originalIndex_first_match sampleSave).2 (by decide)⟩

/-- C7: when `Ks` has no duplicate entries and holds this party's own
`ShareID` at position `i`, `OriginalIndex` recovers exactly `i`. -/
theorem originalIndex_own_index (save : LocalPartySaveData) (i : Nat)
    (hi : i < save.Ks.length) (hKs : save.Ks[i] = save.ShareID)
    (hnd : save.Ks.Nodup) :
    originalIndex save = ((i : Int), none) := by
  have hmem : save.ShareID ∈ save.Ks := hKs ▸ List.getElem_mem hi
  obtain ⟨d, h1, h2, h3⟩ := scanKs_mem save.Ks save.ShareID 0 hmem
  rw [List.getElem?_eq_some] at h2
  obtain ⟨hd, hdv⟩ := h2
  have hdi : d = i := (List.Nodup.getElem_inj_iff hnd).mp (by rw [hdv, hKs])
  subst hdi
  simp only [Nat.zero_add] at h1
  simp [originalIndex, h1]

/-- C7 witness: on `sampleSave` (own share id at position 1, no
duplicates) the recovered index is 1. -/
theorem originalIndex_own_index_witness :
    originalIndex sampleSave = (((1 : Nat) : Int), none) :=
  originalIndex_own_index sampleSave 1 (by decide) (by decide) (by decide)

/-- An in-bounds slice write succeeds and is `List.set`. -/
theorem setAt_inbounds {α : Type} (l : List α) (i : Int) (v : α)
    (h0 : 0 ≤ i) (hn : i < (l.length : Int)) :
    setAt l i v = some (l.set i.toNat v) := if_pos ⟨h0, hn⟩

/-- C5: for each of the four recognized kinds, a message whose sender
index is within the party count is written into the slot array matching
its kind at the sender's index and answered with `(true, nil)`, with no
other precondition on the party's state (in particular, whatever the
current round is) and no validation of the payload. -/
theorem storeMessage_recognized_stores (p : LocalParty) (i : Int) (a : Nat)
    (h0 : 0 ≤ i) (hn : i < (p.partyCount : Int))
    (h1 : p.temp.store.kgRound1CommitMessages.length = p.partyCount)
    (h2 : p.temp.store.kgRound2VssMessages.length = p.partyCount)
    (h3 : p.temp.store.kgRound2DeCommitMessages.length = p.partyCount)
    (h4 : p.temp.store.kgRound3PaillierProveMessage.length = p.partyCount) :
    (∃ q, storeMessage p (.kgRound1Commit ⟨i, a⟩) = some (q, true, none) ∧
       q.temp.store.kgRound1CommitMessages =
         p.temp.store.kgRound1CommitMessages.set i.toNat (some ⟨i, a⟩)) ∧
    (∃ q, storeMessage p (.kgRound2Vss ⟨i, a⟩) = some (q, true, none) ∧
       q.temp.store.kgRound2VssMessages =
         p.temp.store.kgRound2VssMessages.set i.toNat (some ⟨i, a⟩)) ∧
    (∃ q, storeMessage p (.kgRound2DeCommit ⟨i, a⟩) = some (q, true, none) ∧
       q.temp.store.kgRound2DeCommitMessages =
         p.temp.store.kgRound2DeCommitMessages.set i.toNat (some ⟨i, a⟩)) ∧
    (∃ q, storeMessage p (.kgRound3PaillierProve ⟨i, a⟩) = some (q, true, none) ∧
       q.temp.store.kgRound3PaillierProveMessage =
         p.temp.store.kgRound3PaillierProveMessage.set i.toNat (some ⟨i, a⟩)) := by
  have e1 : storeMessage p (.kgRound1Commit ⟨i, a⟩) =
      some ({ p with temp := { p.temp with store := { p.temp.store with
          kgRound1CommitMessages :=
            p.temp.store.kgRound1CommitMessages.set i.toNat (some ⟨i, a⟩) } } },
        true, none) := by
    simp only [storeMessage, setAt_inbounds _ _ _ h0 (by rw [h1]; exact hn)]
  have e2 : storeMessage p (.kgRound2Vss ⟨i, a⟩) =
      some ({ p with temp := { p.temp with store := { p.temp.store with
          kgRound2VssMessages :=
            p.temp.store.kgRound2VssMessages.set i.toNat (some ⟨i, a⟩) } } },
        true, none) := by
    simp only [storeMessage, setAt_inbounds _ _ _ h0 (by rw [h2]; exact hn)]
  have e3 : storeMessage p (.kgRound2DeCommit ⟨i, a⟩) =
      some ({ p with temp := { p.temp with store := { p.temp.store with
          kgRound2DeCommitMessages :=
            p.temp.store.kgRound2DeCommitMessages.set i.toNat (some ⟨i, a⟩) } } },
        true, none) := by
    simp only [storeMessage, setAt_inbounds _ _ _ h0 (by rw [h3]; exact hn)]
  have e4 : storeMessage p (.kgRound3PaillierProve ⟨i, a⟩) =
      some ({ p with temp := { p.temp with store := { p.temp.store with
          kgRound3PaillierProveMessage :=
            p.temp.store.kgRound3PaillierProveMessage.set i.toNat (some ⟨i, a⟩) } } },
        true, none) := by
    simp only [storeMessage, setAt_inbounds _ _ _ h0 (by rw [h4]; exact hn)]
  exact ⟨⟨_, e1, rfl⟩, ⟨_, e2, rfl⟩, ⟨_, e3, rfl⟩, ⟨_, e4, rfl⟩⟩

/-- C5 witness at a fresh two-party state, sender index 1. -/
theorem storeMessage_recognized_stores_witness :
    (∃ q, storeMessage (NewLocalParty 2 0) (.kgRound1Commit ⟨1, 5⟩) = some (q, true, none) ∧
       q.temp.store.kgRound1CommitMessages =
         (NewLocalParty 2 0).temp.store.kgRound1CommitMessages.set (1 : Int).toNat
           (some ⟨1, 5⟩)) ∧
    (∃ q, storeMessage (NewLocalParty 2 0) (.kgRound2Vss ⟨1, 5⟩) = some (q, true, none) ∧
       q.temp.store.kgRound2VssMessages =
         (NewLocalParty 2 0).temp.store.kgRound2VssMessages.set (1 : Int).toNat
           (some ⟨1, 5⟩)) ∧
    (∃ q, storeMessage (NewLocalParty 2 0) (.kgRound2DeCommit ⟨1, 5⟩) = some (q, true, none) ∧
       q.temp.store.kgRound2DeCommitMessages =
         (NewLocalParty 2 0).temp.store.kgRound2DeCommitMessages.set (1 : Int).toNat
           (some ⟨1, 5⟩)) ∧
    (∃ q, storeMessage (NewLocalParty 2 0) (.kgRound3PaillierProve ⟨1, 5⟩) = some (q, true, none) ∧
       q.temp.store.kgRound3PaillierProveMessage =
         (NewLocalParty 2 0).temp.store.kgRound3PaillierProveMessage.set (1 : Int).toNat
           (some ⟨1, 5⟩)) :=
  storeMessage_recognized_stores (NewLocalParty 2 0) 1 5 (by decide) (by decide)
    (by decide) (by decide) (by decide) (by decide)

/-- C9: `StoreMessage` performs the slice write at the sender's index with
no bounds check of its own; when the sender index lies in `[0, n)` and the
slot arrays have the construction length `n`, every access is in bounds
and the panic branch is unreachable, while an index outside that range
(here `1` with party count `1`) reaches the out-of-range panic. -/
theorem storeMessage_inbounds_no_panic :
    (∀ (p : LocalParty) (msg : TssMessage), msg.recognized = true →
       p.temp.store.kgRound1CommitMessages.length = p.partyCount →
       p.temp.store.kgRound2VssMessages.length = p.partyCount →
       p.temp.store.kgRound2DeCommitMessages.length = p.partyCount →
       p.temp.store.kgRound3PaillierProveMessage.length = p.partyCount →
       0 ≤ msg.fromIdx → msg.fromIdx < (p.partyCount : Int) →
       (storeMessage p msg).isSome = true) ∧
    storeMessage (NewLocalParty 1 0)
      (.kgRound1Commit { fromIdx := 1, payload := 0 }) = none := by
  constructor
  · intro p msg hrec h1 h2 h3 h4 h0 hn
    cases msg with
    | kgRound1Commit m =>
      simp only [TssMessage.fromIdx] at h0 hn
      simp only [storeMessage, setAt_inbounds _ _ _ h0 (by rw [h1]; exact hn),
        Option.isSome_some]
    | kgRound2Vss m =>
      simp only [TssMessage.fromIdx] at h0 hn
      simp only [storeMessage, setAt_inbounds _ _ _ h0 (by rw [h2]; exact hn),
        Option.isSome_some]
    | kgRound2DeCommit m =>
      simp only [TssMessage.fromIdx] at h0 hn
      simp only [storeMessage, setAt_inbounds _ _ _ h0 (by rw [h3]; exact hn),
        Option.isSome_some]
    | kgRound3PaillierProve m =>
      simp only [TssMessage.fromIdx] at h0 hn
      simp only [storeMessage, setAt_inbounds _ _ _ h0 (by rw [h4]; exact hn),
        Option.isSome_some]
    | unrecognized i => rfl
  · rfl

/-- C9 witness: an in-bounds store on a fresh two-party state does not
reach the panic branch. -/
theorem storeMessage_inbounds_no_panic_witness :
    (storeMessage (NewLocalParty 2 0)
      (.kgRound2Vss { fromIdx := 1, payload := 4 })).isSome = true :=
  storeMessage_inbounds_no_panic.1 (NewLocalParty 2 0)
    (.kgRound2Vss { fromIdx := 1, payload := 4 }) (by decide) (by decide)
    (by decide) (by decide) (by decide) (by decide) (by decide)

/-- C6: storing a recognized message changes only the slot array matching
its kind, and only at the sender's position: the parameters, the save
data, `KGCs` and the other ephemeral fields, the round, both channels,
the other three slot arrays, and every other position of the written
array are unchanged. -/
theorem storeMessage_frame (p q : LocalParty) (msg : TssMessage) (b : Bool)
    (e : Option TssError) (hrec : msg.recognized = true)
    (h : storeMessage p msg = some (q, b, e)) :
    q.partyCount = p.partyCount ∧ q.partyIdx = p.partyIdx ∧
    q.data = p.data ∧ q.temp.KGCs = p.temp.KGCs ∧ q.temp.ui = p.temp.ui ∧
    q.temp.vs = p.temp.vs ∧ q.temp.shares = p.temp.shares ∧
    q.temp.deCommitPolyG = p.temp.deCommitPolyG ∧ q.round = p.round ∧
    q.out = p.out ∧ q.endCh = p.endCh ∧
    (∀ m, msg = .kgRound1Commit m →
       q.temp.store.kgRound2VssMessages = p.temp.store.kgRound2VssMessages ∧
       q.temp.store.kgRound2DeCommitMessages = p.temp.store.kgRound2DeCommitMessages ∧
       q.temp.store.kgRound3PaillierProveMessage = p.temp.store.kgRound3PaillierProveMessage ∧
       ∀ j : Nat, (j : Int) ≠ m.fromIdx →
         q.temp.store.kgRound1CommitMessages[j]? =
           p.temp.store.kgRound1CommitMessages[j]?) ∧
    (∀ m, msg = .kgRound2Vss m →
       q.temp.store.kgRound1CommitMessages = p.temp.store.kgRound1CommitMessages ∧
       q.temp.store.kgRound2DeCommitMessages = p.temp.store.kgRound2DeCommitMessages ∧
       q.temp.store.kgRound3PaillierProveMessage = p.temp.store.kgRound3PaillierProveMessage ∧
       ∀ j : Nat, (j : Int) ≠ m.fromIdx →
         q.temp.store.kgRound2VssMessages[j]? =
           p.temp.store.kgRound2VssMessages[j]?) ∧
    (∀ m, msg = .kgRound2DeCommit m →
       q.temp.store.kgRound1CommitMessages = p.temp.store.kgRound1CommitMessages ∧
       q.temp.store.kgRound2VssMessages = p.temp.store.kgRound2VssMessages ∧
       q.temp.store.kgRound3PaillierProveMessage = p.temp.store.kgRound3PaillierProveMessage ∧
       ∀ j : Nat, (j : Int) ≠ m.fromIdx →
         q.temp.store.kgRound2DeCommitMessages[j]? =
           p.temp.store.kgRound2DeCommitMessages[j]?) ∧
    (∀ m, msg = .kgRound3PaillierProve m →
       q.temp.store.kgRound1CommitMessages = p.temp.store.kgRound1CommitMessages ∧
       q.temp.store.kgRound2VssMessages = p.temp.store.kgRound2VssMessages ∧
       q.temp.store.kgRound2DeCommitMessages = p.temp.store.kgRound2DeCommitMessages ∧
       ∀ j : Nat, (j : Int) ≠ m.fromIdx →
         q.temp.store.kgRound3PaillierProveMessage[j]? =
           p.temp.store.kgRound3PaillierProveMessage[j]?) := by
  cases msg with
  | unrecognized i => simp [TssMessage.recognized] at hrec
  | kgRound1Commit m =>
    simp only [storeMessage] at h
    rcases hset : setAt p.temp.store.kgRound1CommitMessages m.fromIdx (some m) with _ | l
    · rw [hset] at h
      simp at h
    · rw [hset] at h
      rw [setAt] at hset
      split_ifs at hset with hc
      · injection hset with hl
        subst hl
        simp only [Option.some.injEq, Prod.mk.injEq] at h
        obtain ⟨hq, -, -⟩ := h
        subst hq
        refine ⟨rfl, rfl, rfl, rfl, rfl, rfl, rfl, rfl, rfl, rfl, rfl, ?_, ?_, ?_, ?_⟩
        · intro m' hm'
          injection hm' with hmm
          subst hmm
          refine ⟨rfl, rfl, rfl, fun j hj => List.getElem?_set_ne (by omega)⟩
        · intro m' hm'
          simp at hm'
        · intro m' hm'
          simp at hm'
        · intro m' hm'
          simp at hm'
  | kgRound2Vss m =>
    simp only [storeMessage] at h
    rcases hset : setAt p.temp.store.kgRound2VssMessages m.fromIdx (some m) with _ | l
    · rw [hset] at h
      simp at h
    · rw [hset] at h
      rw [setAt] at hset
      split_ifs at hset with hc
      · injection hset with hl
        subst hl
        simp only [Option.some.injEq, Prod.mk.injEq] at h
        obtain ⟨hq, -, -⟩ := h
        subst hq
        refine ⟨rfl, rfl, rfl, rfl, rfl, rfl, rfl, rfl, rfl, rfl, rfl, ?_, ?_, ?_, ?_⟩
        · intro m' hm'; simp at hm'
        · intro m' hm'
          injection hm' with hmm
          subst hmm
          refine ⟨rfl, rfl, rfl, fun j hj => List.getElem?_set_ne (by omega)⟩
        · intro m' hm'
          simp at hm'
        · intro m' hm'
          simp at hm'
  | kgRound2DeCommit m =>
    simp only [storeMessage] at h
    rcases hset : setAt p.temp.store.kgRound2DeCommitMessages m.fromIdx (some m) with _ | l
    · rw [hset] at h
      simp at h
    · rw [hset] at h
      rw [setAt] at hset
      split_ifs at hset with hc
      · injection hset with hl
        subst hl
        simp only [Option.some.injEq, Prod.mk.injEq] at h
        obtain ⟨hq, -, -⟩ := h
        subst hq
        refine ⟨rfl, rfl, rfl, rfl, rfl, rfl, rfl, rfl, rfl, rfl, rfl, ?_, ?_, ?_, ?_⟩
        · intro m' hm'; simp at hm'
        · intro m' hm'; simp at hm'
        · intro m' hm'
          injection hm' with hmm
          subst hmm
          refine ⟨rfl, rfl, rfl, fun j hj => List.getElem?_set_ne (by omega)⟩
        · intro m' hm'; simp at hm'
  | kgRound3PaillierProve m =>
    simp only [storeMessage] at h
    rcases hset : setAt p.temp.store.kgRound3PaillierProveMessage m.fromIdx (some m) with _ | l
    · rw [hset] at h
      simp at h
    · rw [hset] at h
      rw [setAt] at hset
      split_ifs at hset with hc
      · injection hset with hl
        subst hl
        simp only [Option.some.injEq, Prod.mk.injEq] at h
        obtain ⟨hq, -, -⟩ := h
        subst hq
        refine ⟨rfl, rfl, rfl, rfl, rfl, rfl, rfl, rfl, rfl, rfl, rfl, ?_, ?_, ?_, ?_⟩
        · intro m' hm'; simp at hm'
        · intro m' hm'; simp at hm'
        · intro m' hm'; simp at hm'
        · intro m' hm'
          injection hm' with hmm
          subst hmm
          refine ⟨rfl, rfl, rfl, fun j hj => List.getElem?_set_ne (by omega)⟩

/-- C6 witness: storing a round-1 commit from sender 1 into a fresh
two-party state leaves the save data, `KGCs`, the round-2 VSS slots and
slot 0 of the round-1 commit array untouched. -/
theorem storeMessage_frame_witness :
    storedSample.data = (NewLocalParty 2 0).data ∧
    storedSample.temp.KGCs = (NewLocalParty 2 0).temp.KGCs ∧
    storedSample.temp.store.kgRound2VssMessages =
      (NewLocalParty 2 0).temp.store.kgRound2VssMessages ∧
    storedSample.temp.store.kgRound1CommitMessages[0]? =
      (NewLocalParty 2 0).temp.store.kgRound1CommitMessages[0]? := by
  have h := storeMessage_frame (NewLocalParty 2 0) storedSample
    (.kgRound1Commit { fromIdx := 1, payload := 9 }) true none (by decide) (by decide)
  obtain ⟨-, -, hdata, hKGCs, -, -, -, -, -, -, -, hk1, -, -, -⟩ := h
  obtain ⟨hv, -, -, hpos⟩ := hk1 { fromIdx := 1, payload := 9 } rfl
  exact ⟨hdata, hKGCs, hv, hpos 0 (by decide)⟩

/-- C10: a second recognized message of the same kind from the same
sender overwrites the previously stored slot and is again answered
`(true, nil)`: for each kind, storing payload `a` then payload `b` from
sender `i` yields the very same party state as storing payload `b`
alone. -/
theorem storeMessage_overwrite (p : LocalParty) (i : Int) (a b : Nat)
    (h0 : 0 ≤ i) (hn : i < (p.partyCount : Int))
    (h1 : p.temp.store.kgRound1CommitMessages.length = p.partyCount)
    (h2 : p.temp.store.kgRound2VssMessages.length = p.partyCount)
    (h3 : p.temp.store.kgRound2DeCommitMessages.length = p.partyCount)
    (h4 : p.temp.store.kgRound3PaillierProveMessage.length = p.partyCount) :
    (∃ q q', storeMessage p (.kgRound1Commit ⟨i, a⟩) = some (q, true, none) ∧
       storeMessage q (.kgRound1Commit ⟨i, b⟩) = some (q', true, none) ∧
       storeMessage p (.kgRound1Commit ⟨i, b⟩) = some (q', true, none)) ∧
    (∃ q q', storeMessage p (.kgRound2Vss ⟨i, a⟩) = some (q, true, none) ∧
       storeMessage q (.kgRound2Vss ⟨i, b⟩) = some (q', true, none) ∧
       storeMessage p (.kgRound2Vss ⟨i, b⟩) = some (q', true, none)) ∧
    (∃ q q', storeMessage p (.kgRound2DeCommit ⟨i, a⟩) = some (q, true, none) ∧
       storeMessage q (.kgRound2DeCommit ⟨i, b⟩) = some (q', true, none) ∧
       storeMessage p (.kgRound2DeCommit ⟨i, b⟩) = some (q', true, none)) ∧
    (∃ q q', storeMessage p (.kgRound3PaillierProve ⟨i, a⟩) = some (q, true, none) ∧
       storeMessage q (.kgRound3PaillierProve ⟨i, b⟩) = some (q', true, none) ∧
       storeMessage p (.kgRound3PaillierProve ⟨i, b⟩) = some (q', true, none)) := by
  refine ⟨?_, ?_, ?_, ?_⟩
  · refine ⟨{ p with temp := { p.temp with store := { p.temp.store with
        kgRound1CommitMessages :=
          p.temp.store.kgRound1CommitMessages.set i.toNat (some ⟨i, a⟩) } } },
      { p with temp := { p.temp with store := { p.temp.store with
        kgRound1CommitMessages :=
          p.temp.store.kgRound1CommitMessages.set i.toNat (some ⟨i, b⟩) } } },
      ?_, ?_, ?_⟩
    · simp only [storeMessage, setAt_inbounds _ _ _ h0 (by rw [h1]; exact hn)]
    · simp only [storeMessage,
        setAt_inbounds (p.temp.store.kgRound1CommitMessages.set i.toNat (some ⟨i, a⟩)) i
          (some ⟨i, b⟩) h0
          (by simp only [List.length_set]; rw [h1]; exact hn),
        List.set_set]
    · simp only [storeMessage, setAt_inbounds _ _ _ h0 (by rw [h1]; exact hn)]
  · refine ⟨{ p with temp := { p.temp with store := { p.temp.store with
        kgRound2VssMessages :=
          p.temp.store.kgRound2VssMessages.set i.toNat (some ⟨i, a⟩) } } },
      { p with temp := { p.temp with store := { p.temp.store with
        kgRound2VssMessages :=
          p.temp.store.kgRound2VssMessages.set i.toNat (some ⟨i, b⟩) } } },
      ?_, ?_, ?_⟩
    · simp only [storeMessage, setAt_inbounds _ _ _ h0 (by rw [h2]; exact hn)]
    · simp only [storeMessage,
        setAt_inbounds (p.temp.store.kgRound2VssMessages.set i.toNat (some ⟨i, a⟩)) i
          (some ⟨i, b⟩) h0
          (by simp only [List.length_set]; rw [h2]; exact hn),
        List.set_set]
    · simp only [storeMessage, setAt_inbounds _ _ _ h0 (by rw [h2]; exact hn)]
  · refine ⟨{ p with temp := { p.temp with store := { p.temp.store with
        kgRound2DeCommitMessages :=
          p.temp.store.kgRound2DeCommitMessages.set i.toNat (some ⟨i, a⟩) } } },
      { p with temp := { p.temp with store := { p.temp.store with
        kgRound2DeCommitMessages :=
          p.temp.store.kgRound2DeCommitMessages.set i.toNat (some ⟨i, b⟩) } } },
      ?_, ?_, ?_⟩
    · simp only [storeMessage, setAt_inbounds _ _ _ h0 (by rw [h3]; exact hn)]
    · simp only [storeMessage,
        setAt_inbounds (p.temp.store.kgRound2DeCommitMessages.set i.toNat (some ⟨i, a⟩)) i
          (some ⟨i, b⟩) h0
          (by simp only [List.length_set]; rw [h3]; exact hn),
        List.set_set]
    · simp only [storeMessage, setAt_inbounds _ _ _ h0 (by rw [h3]; exact hn)]
  · refine ⟨{ p with temp := { p.temp with store := { p.temp.store with
        kgRound3PaillierProveMessage :=
          p.temp.store.kgRound3PaillierProveMessage.set i.toNat (some ⟨i, a⟩) } } },
      { p with temp := { p.temp with store := { p.temp.store with
        kgRound3PaillierProveMessage :=
          p.temp.store.kgRound3PaillierProveMessage.set i.toNat (some ⟨i, b⟩) } } },
      ?_, ?_, ?_⟩
    · simp only [storeMessage, setAt_inbounds _ _ _ h0 (by rw [h4]; exact hn)]
    · simp only [storeMessage,
        setAt_inbounds (p.temp.store.kgRound3PaillierProveMessage.set i.toNat (some ⟨i, a⟩)) i
          (some ⟨i, b⟩) h0
          (by simp only [List.length_set]; rw [h4]; exact hn),
        List.set_set]
    · simp only [storeMessage, setAt_inbounds _ _ _ h0 (by rw [h4]; exact hn)]

/-- C10 witness: overwriting payload 1 with payload 2 from sender 0 on a
fresh two-party state. -/
theorem storeMessage_overwrite_witness :
    (∃ q q', storeMessage (NewLocalParty 2 0) (.kgRound1Commit ⟨0, 1⟩) = some (q, true, none) ∧
       storeMessage q (.kgRound1Commit ⟨0, 2⟩) = some (q', true, none) ∧
       storeMessage (NewLocalParty 2 0) (.kgRound1Commit ⟨0, 2⟩) = some (q', true, none)) ∧
    (∃ q q', storeMessage (NewLocalParty 2 0) (.kgRound2Vss ⟨0, 1⟩) = some (q, true, none) ∧
       storeMessage q (.kgRound2Vss ⟨0, 2⟩) = some (q', true, none) ∧
       storeMessage (NewLocalParty 2 0) (.kgRound2Vss ⟨0, 2⟩) = some (q', true, none)) ∧
    (∃ q q', storeMessage (NewLocalParty 2 0) (.kgRound2DeCommit ⟨0, 1⟩) = some (q, true, none) ∧
       storeMessage q (.kgRound2DeCommit ⟨0, 2⟩) = some (q', true, none) ∧
       storeMessage (NewLocalParty 2 0) (.kgRound2DeCommit ⟨0, 2⟩) = some (q', true, none)) ∧
    (∃ q q', storeMessage (NewLocalParty 2 0) (.kgRound3PaillierProve ⟨0, 1⟩) = some (q, true, none) ∧
       storeMessage q (.kgRound3PaillierProve ⟨0, 2⟩) = some (q', true, none) ∧
       storeMessage (NewLocalParty 2 0) (.kgRound3PaillierProve ⟨0, 2⟩) = some (q', true, none)) :=
  storeMessage_overwrite (NewLocalParty 2 0) 0 1 2 (by decide) (by decide)
    (by decide) (by decide) (by decide) (by decide)

end Keygen
